import Mathlib

/-!
Verification of the SelfGenUI core subsystem: component tree model and
store mutations, generation cache key derivation, event-handler
resolution, the multi-stage generation pipeline, the recursive fallback
handler, and the patch queue.  Each definition is a shallow embedding of
the corresponding TypeScript source; theorems settle the specification
claims against these definitions.
-/

namespace SelfGen

/-! ## Data model (src/types/index.ts)

`UIComponent` is `{ id, type, props, children?, metadata? }`; children are
a union of nested components, literal text, and placeholders
(`UIChild = UIComponent | string | UIPlaceholder`).  Props maps are
modelled as association lists of string-valued entries; `metadata` is the
optional `{ generated_at, prompt?, version? }` record. -/

structure UIMetadata where
  generated_at : String
  prompt : Option String
  version : Option Nat
deriving Repr, DecidableEq

mutual

inductive UIComponent where
  | mk (id : String) (ty : String) (props : List (String × String))
       (children : List UIChild) (metadata : Option UIMetadata)

inductive UIChild where
  | comp (c : UIComponent)
  | text (s : String)
  | placeholder (id : String) (generationPrompt : String) (triggerType : Option String)

end

def UIComponent.id : UIComponent → String
  | .mk i _ _ _ _ => i

def UIComponent.ty : UIComponent → String
  | .mk _ t _ _ _ => t

def UIComponent.props : UIComponent → List (String × String)
  | .mk _ _ p _ _ => p

def UIComponent.children : UIComponent → List UIChild
  | .mk _ _ _ cs _ => cs

def UIComponent.metadata : UIComponent → Option UIMetadata
  | .mk _ _ _ _ m => m

/-- Top-level ids of a component list (observation used to state claims). -/
def topIds (components : List UIComponent) : List String :=
  components.map UIComponent.id

mutual

/-- Whether a component (at any depth) of the tree carries the given id. -/
def compContainsId : UIComponent → String → Bool
  | .mk i _ _ cs _, t => i == t || childrenContainId cs t

def childrenContainId : List UIChild → String → Bool
  | [], _ => false
  | c :: rest, t => childContainsId c t || childrenContainId rest t

def childContainsId : UIChild → String → Bool
  | .comp c, t => compContainsId c t
  | .text _, _ => false
  | .placeholder i _ _, t => i == t

end

/-- Whether any node of the forest (at any depth) carries the given id. -/
def treeContainsId (components : List UIComponent) (t : String) : Bool :=
  components.any (fun c => compContainsId c t)

/-! ## Store mutations (src/store/appStore.ts)

The zustand store holds `currentComponents : UIComponent[]`; the
mutations below are the pure list transformations each action applies to
it. -/

/-- `Partial<UIComponent>`: each field optionally present.  A present
field overrides the original under object spread. -/
structure UIComponentUpdates where
  id : Option String := none
  ty : Option String := none
  props : Option (List (String × String)) := none
  children : Option (List UIChild) := none
  metadata : Option (Option UIMetadata) := none

/-- Object spread `{ ...c, ...updates }`: fields present in `updates`
replace those of `c`. -/
def spreadMerge (c : UIComponent) (u : UIComponentUpdates) : UIComponent :=
  .mk (u.id.getD c.id) (u.ty.getD c.ty) (u.props.getD c.props)
      (u.children.getD c.children) (u.metadata.getD c.metadata)

/-- `updateComponent`: `state.currentComponents.map(c => c.id === componentId
? { ...c, ...updates } : c)`. -/
def updateComponent (components : List UIComponent) (componentId : String)
    (updates : UIComponentUpdates) : List UIComponent :=
  components.map fun c => if c.id = componentId then spreadMerge c updates else c

/-- The replacement step of `generatePlaceholder`:
`currentComponents.flatMap(comp => comp.id === placeholder.id ? newComponents
: [comp])` — a top-level-only replace. -/
def replacePlaceholderComponents (currentComponents : List UIComponent)
    (placeholderId : String) (newComponents : List UIComponent) : List UIComponent :=
  currentComponents.flatMap fun comp =>
    if comp.id = placeholderId then newComponents else [comp]

/-- `insertComponentAfter`: find the target's index; if present splice the
new component right after it, otherwise append at the end. -/
def insertComponentAfter (components : List UIComponent)
    (targetComponentId : String) (newComponent : UIComponent) : List UIComponent :=
  match components.findIdx? (fun c => c.id = targetComponentId) with
  | some targetIndex => components.insertIdx (targetIndex + 1) newComponent
  | none => components ++ [newComponent]

/-! Concrete components used in witnesses and counterexamples. -/

def compX : UIComponent := .mk "x" "card" [] [] none
def compR : UIComponent := .mk "r" "card" [] [] none
def compNested : UIComponent :=
  .mk "p" "div" [] [UIChild.comp (.mk "X" "button" [] [] none)] none

/-! ## Helper lemmas about the store mutations -/

theorem replace_of_no_match (T : List UIComponent) (tid : String)
    (R : List UIComponent) (h : ∀ c ∈ T, c.id ≠ tid) :
    replacePlaceholderComponents T tid R = T := by
  induction T with
  | nil => rfl
  | cons a T ih =>
    have ha : a.id ≠ tid := h a (List.mem_cons_self a T)
    simp only [replacePlaceholderComponents, List.flatMap_cons, if_neg ha]
    have := ih (fun c hc => h c (List.mem_cons_of_mem a hc))
    simpa [replacePlaceholderComponents] using this

theorem findIdx?_of_no_match (T : List UIComponent) (tid : String)
    (h : ∀ c ∈ T, c.id ≠ tid) :
    T.findIdx? (fun c => c.id = tid) = none := by
  rw [List.findIdx?_eq_none_iff]
  intro c hc
  simp [h c hc]

theorem insertAfter_of_no_match (T : List UIComponent) (tid : String)
    (c : UIComponent) (h : ∀ x ∈ T, x.id ≠ tid) :
    insertComponentAfter T tid c = T ++ [c] := by
  simp [insertComponentAfter, findIdx?_of_no_match T tid h]

theorem not_mem_topIds (T : List UIComponent) (tid : String) :
    tid ∉ topIds T ↔ ∀ c ∈ T, c.id ≠ tid := by
  constructor
  · intro h c hc he
    exact h (List.mem_map.mpr ⟨c, hc, he⟩)
  · intro h hm
    obtain ⟨c, hc, he⟩ := List.mem_map.mp hm
    exact h c hc he

/-! ## Claim C3 — absent-target fallback -/

/-- C3 (corrected): with a target id absent from the top level of the
tree, the store's replace (`generatePlaceholder`'s flatMap) returns the
tree unchanged — the replacement list is dropped, not appended — while
`insertComponentAfter` appends its single new component at the end.
Neither operation raises, and neither reports the fallback through any
flag. -/
theorem absent_target_replace_and_insert (T : List UIComponent) (tid : String)
    (R : List UIComponent) (c : UIComponent) (h : tid ∉ topIds T) :
    replacePlaceholderComponents T tid R = T ∧
    insertComponentAfter T tid c = T ++ [c] := by
  have h' := (not_mem_topIds T tid).mp h
  exact ⟨replace_of_no_match T tid R h', insertAfter_of_no_match T tid c h'⟩

/-- Witness for C3's theorem at a concrete tree and replacement list. -/
theorem absent_target_replace_and_insert_witness :
    replacePlaceholderComponents [compX] "nonexistent-id" [compR] = [compX] ∧
    insertComponentAfter [compX] "nonexistent-id" compR = [compX] ++ [compR] :=
  absent_target_replace_and_insert [compX] "nonexistent-id" [compR] compR
    (by decide)

/-- C3 counterexample: `replace(T, "nonexistent-id", R)` does not return
`T` with `R` appended at the root — the replacement is dropped, so the
result keeps only `T`'s ids. -/
theorem replace_absent_id_keeps_tree_cex :
    replacePlaceholderComponents [compX] "nonexistent-id" [compR] = [compX] ∧
    topIds (replacePlaceholderComponents [compX] "nonexistent-id" [compR]) = ["x"] ∧
    topIds ([compX] ++ [compR]) = ["x", "r"] ∧
    topIds (replacePlaceholderComponents [compX] "nonexistent-id" [compR]) ≠
      topIds ([compX] ++ [compR]) :=
  ⟨rfl, rfl, rfl, by decide⟩

/-! ## Claim C4 — replace invariant -/

/-- C4 (corrected): replacement is top-level only.  For a tree whose
top-level list contains a node with id `X` (and no other top-level node
carries `X`), the replace used by `generatePlaceholder` removes that node
and splices the replacement list into its position, leaving every other
top-level node and their order unchanged. -/
theorem replace_toplevel_position (A B R : List UIComponent) (x : UIComponent)
    (tid : String) (hx : x.id = tid) (hA : tid ∉ topIds A) (hB : tid ∉ topIds B) :
    replacePlaceholderComponents (A ++ x :: B) tid R = A ++ R ++ B := by
  have hA' := (not_mem_topIds A tid).mp hA
  have hB' := (not_mem_topIds B tid).mp hB
  induction A with
  | nil =>
    simp only [List.nil_append, replacePlaceholderComponents, List.flatMap_cons,
      if_pos hx]
    have := replace_of_no_match B tid R hB'
    simp only [replacePlaceholderComponents] at this
    simp [this]
  | cons a A ih =>
    have ha : a.id ≠ tid := hA' a (List.mem_cons_self a A)
    have hA'' : tid ∉ topIds A := by
      rw [not_mem_topIds]
      exact fun c hc => hA' c (List.mem_cons_of_mem a hc)
    have := ih hA'' (fun c hc => hA' c (List.mem_cons_of_mem a hc))
    simp only [replacePlaceholderComponents, List.cons_append, List.flatMap_cons,
      if_neg ha] at this ⊢
    simp [this]

/-- Witness for C4's theorem at a concrete tree. -/
theorem replace_toplevel_position_witness :
    replacePlaceholderComponents ([compR] ++ compX :: []) "x" [compNested] =
      [compR] ++ [compNested] ++ [] :=
  replace_toplevel_position [compR] [] [compNested] compX "x" rfl
    (by decide) (by decide)

/-- C4 counterexample: a node with id `"X"` nested below the top level is
not replaced — the tree is returned unchanged and `"X"` is still present,
contradicting the claim's any-depth reading. -/
theorem replace_nested_not_replaced_cex :
    treeContainsId [compNested] "X" = true ∧
    replacePlaceholderComponents [compNested] "X" [compR] = [compNested] ∧
    treeContainsId (replacePlaceholderComponents [compNested] "X" [compR]) "X" = true :=
  ⟨rfl, rfl, rfl⟩

/-! ## Claim C10 — updateComponent frame -/

/-- C10: `updateComponent` maps each top-level component whose id equals
`componentId` to the spread-merge with the updates and leaves every other
component unchanged, preserving length and order; with no matching id the
list is returned unchanged. -/
theorem updateComponent_pointwise (l : List UIComponent) (cid : String)
    (u : UIComponentUpdates) :
    (updateComponent l cid u).length = l.length ∧
    (∀ (i : Nat) (c : UIComponent), l[i]? = some c →
      (updateComponent l cid u)[i]? =
        some (if c.id = cid then spreadMerge c u else c)) ∧
    ((∀ c ∈ l, c.id ≠ cid) → updateComponent l cid u = l) := by
  refine ⟨List.length_map _ _, ?_, ?_⟩
  · intro i c hc
    simp [updateComponent, List.getElem?_map, hc]
  · intro h
    have : ∀ c ∈ l, (if c.id = cid then spreadMerge c u else c) = c := by
      intro c hc
      simp [h c hc]
    calc l.map (fun c => if c.id = cid then spreadMerge c u else c)
        = l.map id := List.map_congr_left this
      _ = l := List.map_id l

/-- Witness for C10's theorem at a concrete list. -/
theorem updateComponent_pointwise_witness :
    updateComponent [compX] "nope" {} = [compX] :=
  (updateComponent_pointwise [compX] "nope" {}).2.2
    (by
      intro c hc
      simp only [List.mem_singleton] at hc
      subst hc
      decide)

/-! ## Generation context (src/lib/contextManager.ts)

`FullContext` is the full-tier context: trigger element descriptor, the
optional user input, sibling/parent/hierarchy component snapshots, the
app-state snapshot, and host environment info (viewport, user agent,
timestamps). -/

structure TriggerElementInfo where
  id : String
  ty : String
  props : List (String × String)
  textContent : Option String
  positionIndex : Nat
  positionDepth : Nat

structure EnvironmentInfo where
  viewportWidth : Nat
  viewportHeight : Nat
  userAgent : String
  timestamp : String

structure AppStateInfo where
  allComponents : List UIComponent
  componentCount : Nat
  hasErrors : Bool
  lastUserActions : List String
  metadata : List (String × String)

structure FullContext where
  triggerId : String
  triggerType : String
  timestamp : String
  triggerElement : TriggerElementInfo
  userInput : Option String
  componentHierarchy : List UIComponent
  siblingComponents : List UIComponent
  parentComponent : Option UIComponent
  appState : AppStateInfo
  environmentInfo : EnvironmentInfo

/-! ## Cache key derivation (src/services/cacheService.ts, `createCacheKey`)

The key string is `JSON.stringify(keyParts)` for
`keyParts = { triggerId, triggerType, input, parent, siblings }` followed
by the 32-bit string hash `hash = (hash << 5) - hash + charCode` over its
UTF-16 code units, truncated to a signed 32-bit integer at every step,
and finally `Math.abs`. -/

/-- Truncation to a signed 32-bit integer (`| 0` and `<<` semantics). -/
def toInt32 (x : Int) : Int := (x + 2 ^ 31) % 2 ^ 32 - 2 ^ 31

/-- UTF-16 code units of a character (`charCodeAt` iterates these). -/
def utf16CodeUnits (c : Char) : List Nat :=
  if c.toNat < 65536 then [c.toNat]
  else [55296 + (c.toNat - 65536) / 1024, 56320 + (c.toNat - 65536) % 1024]

/-- One step of the JS hash loop: `hash = (hash << 5) - hash + code; hash |= 0`. -/
def hashStep (h : Int) (code : Nat) : Int :=
  toInt32 (toInt32 (h * 32) - h + code)

/-- The 32-bit string hash of `createCacheKey`. -/
def jsHash (s : String) : Int :=
  ((s.data.flatMap utf16CodeUnits).foldl hashStep 0)

def hexDigit (n : Nat) : Char :=
  if n < 10 then Char.ofNat (48 + n) else Char.ofNat (87 + n)

/-- `JSON.stringify` escaping of a single character inside a string. -/
def jsonEscapeChar (c : Char) : String :=
  if c = '"' then "\\\""
  else if c = '\\' then "\\\\"
  else if c.toNat = 8 then "\\b"
  else if c.toNat = 9 then "\\t"
  else if c.toNat = 10 then "\\n"
  else if c.toNat = 12 then "\\f"
  else if c.toNat = 13 then "\\r"
  else if c.toNat < 32 then
    "\\u00" ++ String.mk [hexDigit (c.toNat / 16), hexDigit (c.toNat % 16)]
  else String.singleton c

/-- `JSON.stringify` of a string value. -/
def jsonQuote (s : String) : String :=
  "\"" ++ String.join (s.data.map jsonEscapeChar) ++ "\""

/-- `JSON.stringify(keyParts)`: the five key parts in insertion order.
`input` is `userInput || ''` and `parent` is `parentComponent?.id || ''`
(both collapse to the empty string when absent; `||` on a string equals
the string itself or its empty default).  `siblings` joins the sibling
ids with a comma in capture order — no canonical reordering. -/
def cacheKeyString (context : FullContext) : String :=
  "\x7b\"triggerId\":" ++ jsonQuote context.triggerElement.id ++
  ",\"triggerType\":" ++ jsonQuote context.triggerElement.ty ++
  ",\"input\":" ++ jsonQuote (context.userInput.getD "") ++
  ",\"parent\":" ++ jsonQuote ((context.parentComponent.map UIComponent.id).getD "") ++
  ",\"siblings\":" ++
    jsonQuote (String.intercalate "," (context.siblingComponents.map UIComponent.id)) ++
  "\x7d"

def CACHE_PREFIX : String := "recursive-cache-"

/-- `createCacheKey`: prefix plus the decimal rendering of the absolute
hash of the key string. -/
def createCacheKey (context : FullContext) : String :=
  CACHE_PREFIX ++ toString (jsHash (cacheKeyString context)).natAbs

/-! Concrete contexts for the C1 theorems. -/

def sibA : UIComponent := .mk "sib-a" "card" [] [] none
def sibB : UIComponent := .mk "sib-b" "card" [] [] none

def ctxWith (sibs : List UIComponent) (ts : String) (vw : Nat) : FullContext :=
  { triggerId := "btn-1"
    triggerType := "recursive-generation"
    timestamp := ts
    triggerElement :=
      { id := "btn-1", ty := "button", props := [], textContent := none
        positionIndex := 0, positionDepth := 1 }
    userInput := none
    componentHierarchy := []
    siblingComponents := sibs
    parentComponent := none
    appState :=
      { allComponents := sibs, componentCount := sibs.length, hasErrors := false
        lastUserActions := [], metadata := [] }
    environmentInfo :=
      { viewportWidth := vw, viewportHeight := 800, userAgent := "test-agent"
        timestamp := ts } }

/-! Evaluation bridge: `hashStep` is congruent to the single-occurrence
form `toInt32 (31 * h + c)`, which the kernel can evaluate without
duplicating the accumulator.  The claims are stated about `jsHash` /
`createCacheKey`; the linear form is only a proof vehicle. -/

theorem toInt32_emod (x : Int) : toInt32 x % 2 ^ 32 = x % 2 ^ 32 := by
  unfold toInt32
  omega

theorem toInt32_congr {a b : Int} (h : a % 2 ^ 32 = b % 2 ^ 32) :
    toInt32 a = toInt32 b := by
  unfold toInt32
  omega

theorem hashStep_linear (h : Int) (c : Nat) :
    hashStep h c = toInt32 (31 * h + c) := by
  unfold hashStep
  apply toInt32_congr
  have h32 := toInt32_emod (h * 32)
  omega

def jsHashLinear (s : String) : Int :=
  ((s.data.flatMap utf16CodeUnits).foldl
    (fun (h : Int) (c : Nat) => toInt32 (31 * h + c)) 0)

theorem jsHash_eq_linear (s : String) : jsHash s = jsHashLinear s := by
  have hf : hashStep = fun (h : Int) (c : Nat) => toInt32 (31 * h + c) :=
    funext fun h => funext fun c => hashStep_linear h c
  rw [jsHash, jsHashLinear, hf]

theorem createCacheKey_eq_linear (c : FullContext) :
    createCacheKey c =
      CACHE_PREFIX ++ toString (jsHashLinear (cacheKeyString c)).natAbs := by
  rw [createCacheKey, jsHash_eq_linear]

/-! ## Claim C1 — cache key determinism -/

/-- C1 (corrected): the derived cache key is a function of exactly the
projection (trigger element id, trigger element type, user input with
empty-string default, parent id with empty-string default, and the
sibling id sequence in capture order).  Contexts agreeing on this
projection derive equal keys regardless of differing timestamp, viewport,
or any other tier field.  The sibling ids enter as an ordered sequence,
not a set — see the counterexample. -/
theorem createCacheKey_projection (c1 c2 : FullContext)
    (h1 : c1.triggerElement.id = c2.triggerElement.id)
    (h2 : c1.triggerElement.ty = c2.triggerElement.ty)
    (h3 : c1.userInput.getD "" = c2.userInput.getD "")
    (h4 : (c1.parentComponent.map UIComponent.id).getD "" =
          (c2.parentComponent.map UIComponent.id).getD "")
    (h5 : c1.siblingComponents.map UIComponent.id =
          c2.siblingComponents.map UIComponent.id) :
    createCacheKey c1 = createCacheKey c2 := by
  unfold createCacheKey cacheKeyString
  rw [h1, h2, h3, h4, h5]

/-- Witness for C1's theorem: two contexts that differ in timestamp and
viewport but agree on the projection derive the same key. -/
theorem createCacheKey_projection_witness :
    createCacheKey (ctxWith [sibA, sibB] "2024-01-01T00:00:00Z" 100) =
      createCacheKey (ctxWith [sibA, sibB] "2025-06-30T12:34:56Z" 1920) :=
  createCacheKey_projection _ _ rfl rfl rfl rfl rfl

set_option maxRecDepth 10000 in
/-- C1 counterexample: two contexts identical except for the order in
which the two sibling fragments were captured (equal sibling id sets)
derive different cache keys, refuting order-independence. -/
theorem createCacheKey_sibling_order_cex :
    (ctxWith [sibA, sibB] "t1" 100).triggerElement.id =
      (ctxWith [sibB, sibA] "t1" 100).triggerElement.id ∧
    (ctxWith [sibA, sibB] "t1" 100).triggerElement.ty =
      (ctxWith [sibB, sibA] "t1" 100).triggerElement.ty ∧
    (ctxWith [sibA, sibB] "t1" 100).userInput =
      (ctxWith [sibB, sibA] "t1" 100).userInput ∧
    (ctxWith [sibA, sibB] "t1" 100).parentComponent.map UIComponent.id =
      (ctxWith [sibB, sibA] "t1" 100).parentComponent.map UIComponent.id ∧
    ((ctxWith [sibA, sibB] "t1" 100).siblingComponents.map UIComponent.id).toFinset =
      ((ctxWith [sibB, sibA] "t1" 100).siblingComponents.map UIComponent.id).toFinset ∧
    createCacheKey (ctxWith [sibA, sibB] "t1" 100) ≠
      createCacheKey (ctxWith [sibB, sibA] "t1" 100) := by
  refine ⟨rfl, rfl, rfl, rfl, by decide, ?_⟩
  rw [createCacheKey_eq_linear, createCacheKey_eq_linear]
  decide

/-! ## Event-handler resolution (src/lib/functionResolver.ts)

Handlers are modelled as descriptors: a registry entry (the function
stored under a name in `functionRegistry`) or the recursive generative
fallback closure bound to `(componentId, elementId, eventName)`.  A
declared prop value is a callable, a string, or anything else
(undefined/null/objects). -/

inductive EventHandler where
  | registered (name : String)
  | recursive (componentId : String) (elementId : String) (eventName : String)
deriving DecidableEq, Repr

inductive PropValue where
  | fn (h : EventHandler)
  | str (s : String)
  | other
deriving DecidableEq, Repr

/-- Keys of the static `functionRegistry` (every stored value is a
function, hence truthy). -/
def functionRegistryKeys : List String :=
  ["noop", "preventDefault", "stopPropagation", "logClick", "alertClick",
   "consoleLog", "submitForm", "logFormSubmit", "logChange", "validateInput",
   "closeModal", "openModal", "navigateHome", "navigateBack", "performSearch",
   "logInteraction"]

/-- `createRecursiveHandler(componentId, elementId, eventName)`: the
generative fallback closure. -/
def createRecursiveHandler (componentId elementId eventName : String) :
    EventHandler :=
  .recursive componentId elementId eventName

/-- `resolveEventHandler`: the source first tests
`typeof propValue === 'string' && functionRegistry[propValue]`, then
`typeof propValue === 'function'`, then falls back to
`createRecursiveHandler`.  The two typeof guards are mutually exclusive,
so the sequential ifs are exactly this case split.  `registry` is the
current key set of `functionRegistry`. -/
def resolveEventHandler (registry : List String) (propName : String)
    (propValue : PropValue) (componentId elementId : String) : EventHandler :=
  match propValue with
  | .str s =>
    if s ∈ registry then .registered s
    else createRecursiveHandler componentId elementId propName
  | .fn h => h
  | .other => createRecursiveHandler componentId elementId propName

/-! ## Claim C6 — resolution precedence -/

/-- C6: resolution always returns a handler, by strict precedence: a
declared callable is returned verbatim; otherwise a string naming a
registry entry resolves to the registered handler; otherwise the
generative fallback bound to `(componentId, elementId, eventName)` is
returned. -/
theorem resolveEventHandler_precedence (registry : List String)
    (propName : String) (propValue : PropValue) (componentId elementId : String) :
    (∀ h, propValue = .fn h →
      resolveEventHandler registry propName propValue componentId elementId = h) ∧
    (∀ s, propValue = .str s → s ∈ registry →
      resolveEventHandler registry propName propValue componentId elementId =
        .registered s) ∧
    ((propValue = .other ∨ ∃ s, propValue = .str s ∧ s ∉ registry) →
      resolveEventHandler registry propName propValue componentId elementId =
        .recursive componentId elementId propName) := by
  refine ⟨?_, ?_, ?_⟩
  · intro h he
    subst he
    rfl
  · intro s he hs
    subst he
    simp [resolveEventHandler, hs]
  · rintro (he | ⟨s, he, hs⟩) <;> subst he
    · rfl
    · simp [resolveEventHandler, hs, createRecursiveHandler]

/-- Witness for C6's theorem: all three branches at concrete inputs. -/
theorem resolveEventHandler_precedence_witness :
    resolveEventHandler functionRegistryKeys "onClick"
      (.fn (.registered "logClick")) "comp-1" "el-1" = .registered "logClick" ∧
    resolveEventHandler functionRegistryKeys "onClick"
      (.str "logClick") "comp-1" "el-1" = .registered "logClick" ∧
    resolveEventHandler functionRegistryKeys "onClick"
      (.str "totallyUnknown") "comp-1" "el-1" = .recursive "comp-1" "el-1" "onClick" :=
  ⟨(resolveEventHandler_precedence functionRegistryKeys "onClick"
      (.fn (.registered "logClick")) "comp-1" "el-1").1 _ rfl,
   (resolveEventHandler_precedence functionRegistryKeys "onClick"
      (.str "logClick") "comp-1" "el-1").2.1 "logClick" rfl (by decide),
   (resolveEventHandler_precedence functionRegistryKeys "onClick"
      (.str "totallyUnknown") "comp-1" "el-1").2.2
      (Or.inr ⟨"totallyUnknown", rfl, by decide⟩)⟩

/-! ## Context capture (src/lib/contextManager.ts)

The DOM element descriptor carries the attributes `extractElementProps`
reads: `id` and `className` plus the input- and button-specific
attributes for elements of those kinds.  Host state (viewport, user agent, clock)
is passed explicitly. -/

structure DomElement where
  id : String
  tagName : String
  className : String
  textContent : String
  isInput : Bool
  inputType : String
  inputValue : String
  inputPlaceholder : String
  isButton : Bool
  buttonType : String
  buttonDisabled : Bool

structure HostInfo where
  innerWidth : Nat
  innerHeight : Nat
  userAgent : String
  nowIso : String

/-- `extractElementProps`: id/className when truthy, then input-specific
then button-specific attributes (boolean rendered as its string form). -/
def extractElementProps (el : DomElement) : List (String × String) :=
  (if el.id ≠ "" then [("id", el.id)] else []) ++
  (if el.className ≠ "" then [("className", el.className)] else []) ++
  (if el.isInput then
    [("type", el.inputType), ("value", el.inputValue),
     ("placeholder", el.inputPlaceholder)]
   else []) ++
  (if el.isButton then
    [("type", el.buttonType), ("disabled", toString el.buttonDisabled)]
   else [])

/-- `findSiblingComponents`: all top-level components other than the
trigger, limited to 3. -/
def findSiblingComponents (components : List UIComponent) (targetId : String) :
    List UIComponent :=
  (components.filter (fun comp => comp.id ≠ targetId)).take 3

def childIdIs (child : UIChild) (targetId : String) : Bool :=
  match child with
  | .comp c => c.id == targetId
  | .text _ => false
  | .placeholder i _ _ => i == targetId

/-- `findParentComponent`: the first top-level component having an
object child (component or placeholder) with the target id. -/
def findParentComponent (components : List UIComponent) (targetId : String) :
    Option UIComponent :=
  components.find? (fun comp => comp.children.any (fun c => childIdIs c targetId))

/-- `buildComponentHierarchy`: first 5 components. -/
def buildComponentHierarchy (components : List UIComponent) : List UIComponent :=
  components.take 5

/-- `calculateElementPosition`: `Math.max(0, findIndex)` and fixed
depth 1. -/
def calculateElementPosition (components : List UIComponent) (targetId : String) :
    Nat × Nat :=
  ((components.findIdx? (fun comp => comp.id = targetId)).getD 0, 1)

/-- `ContextManager.captureFull`: assembles the full-tier context from
the element, the current components, optional user input and metadata,
and the host environment. -/
def captureFull (host : HostInfo) (el : DomElement)
    (components : List UIComponent) (userInput : Option String)
    (metadata : Option (List (String × String))) : FullContext :=
  let triggerId := if el.id = "" then "unknown" else el.id
  let elementType := el.tagName.toLower
  let position := calculateElementPosition components triggerId
  { triggerId := triggerId
    triggerType := "recursive-generation"
    timestamp := host.nowIso
    triggerElement :=
      { id := triggerId, ty := elementType, props := extractElementProps el
        textContent := if el.textContent = "" then none else some el.textContent
        positionIndex := position.1, positionDepth := position.2 }
    userInput := userInput
    componentHierarchy := buildComponentHierarchy components
    siblingComponents := findSiblingComponents components triggerId
    parentComponent := findParentComponent components triggerId
    appState :=
      { allComponents := components, componentCount := components.length
        hasErrors := false, lastUserActions := [], metadata := metadata.getD [] }
    environmentInfo :=
      { viewportWidth := host.innerWidth, viewportHeight := host.innerHeight
        userAgent := host.userAgent, timestamp := host.nowIso } }

/-- `captureContext(elementId, event)`: looks the element up in the DOM;
throws (models as `Except.error`) when absent, otherwise delegates to
`captureFull` with the current components and the event target's string
value as user input. -/
def captureContext (dom : String → Option DomElement) (host : HostInfo)
    (components : List UIComponent) (elementId : String)
    (eventTargetValue : Option String) : Except String FullContext :=
  match dom elementId with
  | none =>
    .error ("Element with ID " ++ elementId ++ " not found for context capture.")
  | some el => .ok (captureFull host el components eventTargetValue none)

/-- `buildFallbackPrompt`: the context object itself is the prompt. -/
def buildFallbackPrompt (context : FullContext) : FullContext := context

/-! ## Recursive fallback handler (src/lib/functionResolver.ts,
`createRecursiveHandler`; src/services/uiOrchestrator.ts,
`insertRecursiveUI`) -/

structure RecursiveCacheEntry where
  ui : UIComponent
  componentId : String
  reasoning : String
  createdAt : String

structure GenOutcome where
  ui : UIComponent
  componentId : String
  reasoning : String

/-- The handler's collaborators: the DOM, host state, the store's current
components, the persistent cache store keyed by derived cache key, and
the generative backend (an external LLM call that can fail). -/
structure HandlerEnv where
  dom : String → Option DomElement
  host : HostInfo
  components : List UIComponent
  eventTargetValue : Option String
  storage : String → Option RecursiveCacheEntry
  generate : FullContext → Except String GenOutcome

/-- `insertRecursiveUI`: guard against a falsy target id (no-op with an
error log), then `insertComponentAfter` wrapped in try/catch. -/
def insertRecursiveUI (components : List UIComponent) (component : UIComponent)
    (targetElementId : String) : List UIComponent :=
  if targetElementId = "" then components
  else insertComponentAfter components targetElementId component

/-- One invocation of the handler returned by `createRecursiveHandler`:
capture context, probe the cache (`getCachedRecursiveResult` absorbs
store failures into a miss), on a miss build the prompt and generate,
then insert after the triggering component.  The surrounding try/catch
means any error before placement leaves the components unchanged, and no
exception escapes the handler. -/
def runRecursiveHandler (env : HandlerEnv) (componentId elementId : String)
    (_eventName : String) : List UIComponent :=
  match captureContext env.dom env.host env.components elementId
      env.eventTargetValue with
  | .error _ => env.components
  | .ok context =>
    match env.storage (createCacheKey context) with
    | some cached => insertRecursiveUI env.components cached.ui componentId
    | none =>
      match env.generate (buildFallbackPrompt context) with
      | .error _ => env.components
      | .ok out => insertRecursiveUI env.components out.ui componentId

/-! Concrete handler environments for witnesses and counterexamples. -/

def hostTest : HostInfo :=
  { innerWidth := 1024, innerHeight := 768, userAgent := "test-agent"
    nowIso := "2024-01-01T00:00:00Z" }

def elX : DomElement :=
  { id := "el-x", tagName := "BUTTON", className := "", textContent := ""
    isInput := false, inputType := "", inputValue := "", inputPlaceholder := ""
    isButton := true, buttonType := "button", buttonDisabled := false }

def outR : GenOutcome := { ui := compR, componentId := "r", reasoning := "fresh" }

def envNoDom : HandlerEnv :=
  { dom := fun _ => none, host := hostTest, components := [compX]
    eventTargetValue := none, storage := fun _ => none
    generate := fun _ => .ok outR }

def envDomPresent : HandlerEnv :=
  { dom := fun i => if i = "el-x" then some elX else none, host := hostTest
    components := [compX], eventTargetValue := none, storage := fun _ => none
    generate := fun _ => .ok outR }

def envGenFail : HandlerEnv :=
  { dom := fun i => if i = "el-x" then some elX else none, host := hostTest
    components := [compX], eventTargetValue := none, storage := fun _ => none
    generate := fun _ => .error "generation failed" }

/-! ## Claim C7 — fallback handler on a vanished element -/

/-- C7 (corrected): the behavior splits on where the id is missing.  If
the trigger element id is absent from the DOM, `captureContext` fails
(its error is caught by the handler) and the tree is left unchanged — no
generation and no placement happen.  If the element is still in the DOM
but the triggering component id is absent from the component tree, the
invocation completes capture and generation and placement degrades to
appending the fragment at the end of the root list. -/
theorem recursiveHandler_absent_target (env : HandlerEnv)
    (componentId elementId eventName : String) :
    (env.dom elementId = none →
      runRecursiveHandler env componentId elementId eventName = env.components) ∧
    (∀ el out, env.dom elementId = some el →
      env.storage (createCacheKey
        (captureFull env.host el env.components env.eventTargetValue none)) = none →
      env.generate (buildFallbackPrompt
        (captureFull env.host el env.components env.eventTargetValue none)) =
          .ok out →
      componentId ∉ topIds env.components → componentId ≠ "" →
      runRecursiveHandler env componentId elementId eventName =
        env.components ++ [out.ui]) := by
  constructor
  · intro hdom
    simp [runRecursiveHandler, captureContext, hdom]
  · intro el out hdom hmiss hgen hcid hne
    have h' := (not_mem_topIds env.components componentId).mp hcid
    simp only [runRecursiveHandler, captureContext, hdom, hmiss, hgen,
      insertRecursiveUI, if_neg hne]
    exact insertAfter_of_no_match env.components componentId out.ui h'

/-- Witness for C7's theorem: both branches at concrete environments. -/
theorem recursiveHandler_absent_target_witness :
    runRecursiveHandler envNoDom "comp-1" "ghost" "onClick" = [compX] ∧
    runRecursiveHandler envDomPresent "gone-comp" "el-x" "onClick" =
      [compX] ++ [outR.ui] :=
  ⟨(recursiveHandler_absent_target envNoDom "comp-1" "ghost" "onClick").1 rfl,
   (recursiveHandler_absent_target envDomPresent "gone-comp" "el-x" "onClick").2
     elX outR rfl rfl rfl (by decide) (by decide)⟩

/-- C7 counterexample: with the element id absent from the DOM, context
capture fails with an error (caught by the handler), generation is never
reached, and nothing is appended — the tree keeps exactly its prior ids,
contradicting "still completes context capture and generation" and
"placement degrades to appending". -/
theorem recursiveHandler_missing_element_cex :
    captureContext envNoDom.dom envNoDom.host envNoDom.components "ghost" none =
      .error "Element with ID ghost not found for context capture." ∧
    runRecursiveHandler envNoDom "comp-1" "ghost" "onClick" = [compX] ∧
    topIds (runRecursiveHandler envNoDom "comp-1" "ghost" "onClick") = ["x"] ∧
    topIds ([compX] ++ [outR.ui]) = ["x", "r"] :=
  ⟨rfl, rfl, rfl, rfl⟩

/-! ## Claim C8 — failures before placement leave the tree unchanged -/

/-- C8: if context capture fails, or the cache misses and generation
fails, the handler returns the components unchanged.  The cache probe
itself absorbs store failures into a miss (`getCachedRecursiveResult`
catches and returns null), prompt building is the identity and cannot
fail, and the handler's try/catch means no exception escapes; the tree is
mutated only by the placement step. -/
theorem recursiveHandler_failure_frame (env : HandlerEnv)
    (componentId elementId eventName : String) :
    (∀ e, captureContext env.dom env.host env.components elementId
        env.eventTargetValue = .error e →
      runRecursiveHandler env componentId elementId eventName = env.components) ∧
    (∀ context e, captureContext env.dom env.host env.components elementId
        env.eventTargetValue = .ok context →
      env.storage (createCacheKey context) = none →
      env.generate (buildFallbackPrompt context) = .error e →
      runRecursiveHandler env componentId elementId eventName = env.components) := by
  constructor
  · intro e hcap
    simp [runRecursiveHandler, hcap]
  · intro context e hcap hmiss hgen
    simp [runRecursiveHandler, hcap, hmiss, hgen]

/-- Witness for C8's theorem: a concrete environment whose generation
call fails leaves the concrete tree unchanged. -/
theorem recursiveHandler_failure_frame_witness :
    runRecursiveHandler envGenFail "comp-1" "el-x" "onClick" = [compX] :=
  (recursiveHandler_failure_frame envGenFail "comp-1" "el-x" "onClick").2
    (captureFull hostTest elX [compX] none none) "generation failed" rfl rfl rfl

/-! ## Patch queue (src/services/patchService.ts)

`PatchService` keeps `patchQueue` and an `isProcessing` flag.
`queuePatch` pushes and calls `processQueue`; `processQueue` returns at
once when busy or empty, otherwise sets the flag, shifts the head and
starts its fix attempt.  When the awaited attempt completes (success or
failure, including the component-not-found early return) the flag is
cleared and `processQueue` is called again.  The async function body runs
synchronously up to its first await, so flag updates are atomic with the
dequeue.  The model tracks started-but-unfinished attempts in `inFlight`
(a list, so that "at most one in flight" is a theorem, not a typing
artifact) and finished attempts in `completed`, in completion order. -/

structure PatchRequest where
  componentId : String
  errorMsg : String
deriving DecidableEq, Repr

structure PatchState where
  patchQueue : List PatchRequest
  isProcessing : Bool
  inFlight : List PatchRequest
  completed : List PatchRequest

def initialPatchState : PatchState :=
  { patchQueue := [], isProcessing := false, inFlight := [], completed := [] }

/-- `processQueue` up to its suspension: no-op when busy or empty; else
set the flag, shift the head, and start its fix attempt. -/
def processQueue (s : PatchState) : PatchState :=
  if s.isProcessing then s
  else
    match s.patchQueue with
    | [] => s
    | r :: rest =>
      { patchQueue := rest, isProcessing := true
        inFlight := s.inFlight ++ [r], completed := s.completed }

/-- `queuePatch`: push the request, then `processQueue`. -/
def queuePatch (s : PatchState) (r : PatchRequest) : PatchState :=
  processQueue { s with patchQueue := s.patchQueue ++ [r] }

/-- Completion of the current fix attempt (success or failure): record
it, clear the flag, and continue with the next queued patch, if any. -/
def completeCurrent (s : PatchState) : PatchState :=
  match s.inFlight with
  | [] => s
  | r :: rest =>
    processQueue
      { patchQueue := s.patchQueue, isProcessing := false
        inFlight := rest, completed := s.completed ++ [r] }

inductive PatchEvent where
  | enqueue (r : PatchRequest)
  | complete

def patchStep (s : PatchState) : PatchEvent → PatchState
  | .enqueue r => queuePatch s r
  | .complete => completeCurrent s

def runPatchEvents (events : List PatchEvent) : PatchState :=
  events.foldl patchStep initialPatchState

/-- Requests of a trace, in enqueue order. -/
def enqueuedOf (events : List PatchEvent) : List PatchRequest :=
  events.filterMap fun e =>
    match e with
    | .enqueue r => some r
    | .complete => none

/-- Reachability invariant of the patch service state. -/
def PatchInv (s : PatchState) : Prop :=
  s.inFlight.length ≤ 1 ∧ s.isProcessing = !s.inFlight.isEmpty ∧
    (s.isProcessing = false → s.patchQueue = [])

theorem patchStep_preserves (s : PatchState) (e : PatchEvent) (h : PatchInv s) :
    PatchInv (patchStep s e) ∧
    (patchStep s e).completed ++ (patchStep s e).inFlight ++
        (patchStep s e).patchQueue =
      s.completed ++ s.inFlight ++ s.patchQueue ++ enqueuedOf [e] := by
  obtain ⟨hlen, hflag, hidle⟩ := h
  cases e with
  | enqueue r =>
    by_cases hp : s.isProcessing
    · have hq : patchStep s (.enqueue r) =
          { s with patchQueue := s.patchQueue ++ [r] } := by
        simp [patchStep, queuePatch, processQueue, hp]
      rw [hq]
      refine ⟨⟨hlen, hflag, ?_⟩, by simp [enqueuedOf]⟩
      intro hfalse
      exact absurd hfalse (by simp [hp])
    · have hp' : s.isProcessing = false := by
        cases hproc : s.isProcessing
        · rfl
        · exact absurd hproc hp
      have hqe : s.patchQueue = [] := hidle hp'
      have hfe : s.inFlight = [] := by
        cases hin : s.inFlight with
        | nil => rfl
        | cons a l =>
          rw [hp', hin] at hflag
          simp at hflag
      have hq : patchStep s (.enqueue r) =
          { patchQueue := [], isProcessing := true, inFlight := s.inFlight ++ [r]
            completed := s.completed } := by
        simp [patchStep, queuePatch, processQueue, hp, hqe]
      rw [hq]
      refine ⟨⟨by simp [hfe], by simp, by simp⟩, ?_⟩
      simp [hfe, hqe, enqueuedOf]
  | complete =>
    cases hin : s.inFlight with
    | nil =>
      have hq : patchStep s .complete = s := by
        simp [patchStep, completeCurrent, hin]
      rw [hq]
      refine ⟨⟨hlen, hflag, hidle⟩, ?_⟩
      simp [hin, enqueuedOf]
    | cons r rest =>
      have hrest : rest = [] := by
        have := hlen
        rw [hin] at this
        simpa using this
      subst hrest
      cases hqv : s.patchQueue with
      | nil =>
        have hq : patchStep s .complete =
            { patchQueue := [], isProcessing := false, inFlight := []
              completed := s.completed ++ [r] } := by
          simp [patchStep, completeCurrent, hin, processQueue, hqv]
        rw [hq]
        exact ⟨⟨by simp, by simp, by simp⟩, by simp [hin, hqv, enqueuedOf]⟩
      | cons q qrest =>
        have hq : patchStep s .complete =
            { patchQueue := qrest, isProcessing := true, inFlight := [q]
              completed := s.completed ++ [r] } := by
          simp [patchStep, completeCurrent, hin, processQueue, hqv]
        rw [hq]
        exact ⟨⟨by simp, by simp, by simp⟩, by simp [hin, hqv, enqueuedOf]⟩

theorem patch_run_preserves (events : List PatchEvent) :
    ∀ s : PatchState, PatchInv s →
      PatchInv (events.foldl patchStep s) ∧
      (events.foldl patchStep s).completed ++ (events.foldl patchStep s).inFlight ++
          (events.foldl patchStep s).patchQueue =
        s.completed ++ s.inFlight ++ s.patchQueue ++ enqueuedOf events := by
  induction events with
  | nil => intro s h; exact ⟨h, by simp [enqueuedOf]⟩
  | cons e es ih =>
    intro s h
    obtain ⟨h1, h2⟩ := patchStep_preserves s e h
    obtain ⟨h3, h4⟩ := ih (patchStep s e) h1
    refine ⟨by simpa using h3, ?_⟩
    simp only [List.foldl_cons] at h4 ⊢
    rw [h4, h2]
    have : enqueuedOf (e :: es) = enqueuedOf [e] ++ enqueuedOf es := by
      cases e <;> simp [enqueuedOf]
    rw [this]
    simp

/-! ## Claim C9 — patch queue serialization -/

/-- C9: along every trace of enqueue/completion events from the initial
state, at most one fix attempt is in flight, the `isProcessing` flag is
set exactly while one is, and the completed attempts followed by the
in-flight attempt and the still-queued requests equal the full enqueue
order — i.e. requests are started and drained strictly in FIFO order,
the next one only after the current completes. -/
theorem patchQueue_serialized_fifo (events : List PatchEvent) :
    (runPatchEvents events).inFlight.length ≤ 1 ∧
    (runPatchEvents events).isProcessing =
      !(runPatchEvents events).inFlight.isEmpty ∧
    (runPatchEvents events).completed ++ (runPatchEvents events).inFlight ++
        (runPatchEvents events).patchQueue = enqueuedOf events := by
  have h0 : PatchInv initialPatchState := by
    refine ⟨by simp [initialPatchState], by simp [initialPatchState], ?_⟩
    intro
    simp [initialPatchState]
  obtain ⟨⟨h1, h2, _⟩, h3⟩ := patch_run_preserves events initialPatchState h0
  refine ⟨h1, h2, ?_⟩
  simpa [initialPatchState] using h3

/-! ## JSON values and `JSON.parse` (host primitive used by the pipeline)

`jsonParse` follows the JSON grammar: optional whitespace around a single
value; strings with the JSON escapes and no raw control characters;
numbers `-?(0|[1-9][0-9]*)(.[0-9]+)?([eE][+-]?[0-9]+)?` (kept as their
lexeme); arrays and objects with comma-separated elements.  Recursion is
fuelled by the input length. -/

inductive JsValue where
  | null
  | bool (b : Bool)
  | num (lexeme : String)
  | str (s : String)
  | arr (xs : List JsValue)
  | obj (fields : List (String × JsValue))

def lbrace : Char := Char.ofNat 123
def rbrace : Char := Char.ofNat 125

def isJsonWs (c : Char) : Bool :=
  c = ' ' || c = '\t' || c = '\n' || c = '\r'

def skipWs (cs : List Char) : List Char := cs.dropWhile isJsonWs

def isHexChar (c : Char) : Bool :=
  c.isDigit || ('a' ≤ c && c ≤ 'f') || ('A' ≤ c && c ≤ 'F')

def hexVal (c : Char) : Nat :=
  if c.isDigit then c.toNat - 48
  else if 'a' ≤ c && c ≤ 'f' then c.toNat - 87
  else c.toNat - 55

/-- Body of a JSON string after the opening quote. -/
def parseStringBody : List Char → List Char → Option (String × List Char)
  | acc, '"' :: rest => some (String.mk acc.reverse, rest)
  | acc, '\\' :: 'u' :: h1 :: h2 :: h3 :: h4 :: rest =>
    if isHexChar h1 && isHexChar h2 && isHexChar h3 && isHexChar h4 then
      parseStringBody
        (Char.ofNat (((hexVal h1 * 16 + hexVal h2) * 16 + hexVal h3) * 16 + hexVal h4)
          :: acc) rest
    else none
  | acc, '\\' :: e :: rest =>
    if e = '"' || e = '\\' || e = '/' then parseStringBody (e :: acc) rest
    else if e = 'b' then parseStringBody (Char.ofNat 8 :: acc) rest
    else if e = 'f' then parseStringBody (Char.ofNat 12 :: acc) rest
    else if e = 'n' then parseStringBody ('\n' :: acc) rest
    else if e = 'r' then parseStringBody ('\r' :: acc) rest
    else if e = 't' then parseStringBody ('\t' :: acc) rest
    else none
  | acc, c :: rest =>
    if c.toNat < 32 then none else parseStringBody (c :: acc) rest
  | _, [] => none

/-- Digits prefix of the input. -/
def takeDigits (cs : List Char) : List Char × List Char :=
  (cs.takeWhile Char.isDigit, cs.dropWhile Char.isDigit)

/-- JSON number, returning its lexeme. -/
def parseNumber (cs : List Char) : Option (String × List Char) :=
  let (sign, cs1) :=
    match cs with
    | '-' :: rest => (['-'], rest)
    | _ => (([] : List Char), cs)
  match cs1 with
  | '0' :: rest => parseNumberFrac (sign ++ ['0']) rest
  | c :: rest =>
    if c.isDigit then
      let (ds, rest') := takeDigits rest
      parseNumberFrac (sign ++ c :: ds) rest'
    else none
  | [] => none
where
  parseNumberExp (numPart : List Char) (cs : List Char) :
      Option (String × List Char) :=
    match cs with
    | e :: rest =>
      if e = 'e' || e = 'E' then
        let (sgn, rest1) :=
          match rest with
          | '+' :: r => (['+'], r)
          | '-' :: r => (['-'], r)
          | _ => (([] : List Char), rest)
        let (ds, rest2) := takeDigits rest1
        if ds.isEmpty then none
        else some (String.mk (numPart ++ e :: sgn ++ ds), rest2)
      else some (String.mk numPart, cs)
    | [] => some (String.mk numPart, [])
  parseNumberFrac (intPart : List Char) (cs : List Char) :
      Option (String × List Char) :=
    match cs with
    | '.' :: rest =>
      let (ds, rest') := takeDigits rest
      if ds.isEmpty then none
      else parseNumberExp (intPart ++ '.' :: ds) rest'
    | _ => parseNumberExp intPart cs

mutual

def parseValueF : Nat → List Char → Option (JsValue × List Char)
  | 0, _ => none
  | fuel + 1, cs =>
    match skipWs cs with
    | 'n' :: 'u' :: 'l' :: 'l' :: rest => some (.null, rest)
    | 't' :: 'r' :: 'u' :: 'e' :: rest => some (.bool true, rest)
    | 'f' :: 'a' :: 'l' :: 's' :: 'e' :: rest => some (.bool false, rest)
    | '"' :: rest =>
      match parseStringBody [] rest with
      | some (s, rest') => some (.str s, rest')
      | none => none
    | '[' :: rest =>
      (match skipWs rest with
       | ']' :: rest' => some (.arr [], rest')
       | _ =>
         match parseElementsF fuel rest with
         | some (xs, rest') => some (.arr xs, rest')
         | none => none)
    | c :: rest =>
      if c = lbrace then
        match skipWs rest with
        | d :: rest' =>
          if d = rbrace then some (.obj [], rest')
          else
            match parseMembersF fuel rest with
            | some (fs, rest'') => some (.obj fs, rest'')
            | none => none
        | [] => none
      else
        match parseNumber (c :: rest) with
        | some (lex, rest') => some (.num lex, rest')
        | none => none
    | [] => none

def parseElementsF : Nat → List Char → Option (List JsValue × List Char)
  | 0, _ => none
  | fuel + 1, cs =>
    match parseValueF fuel cs with
    | none => none
    | some (v, rest) =>
      match skipWs rest with
      | ',' :: rest' =>
        (match parseElementsF fuel rest' with
         | some (xs, rest'') => some (v :: xs, rest'')
         | none => none)
      | ']' :: rest' => some ([v], rest')
      | _ => none

def parseMembersF : Nat → List Char → Option (List (String × JsValue) × List Char)
  | 0, _ => none
  | fuel + 1, cs =>
    match skipWs cs with
    | '"' :: rest =>
      (match parseStringBody [] rest with
       | none => none
       | some (key, rest1) =>
         match skipWs rest1 with
         | ':' :: rest2 =>
           (match parseValueF fuel rest2 with
            | none => none
            | some (v, rest3) =>
              match skipWs rest3 with
              | ',' :: rest4 =>
                (match parseMembersF fuel rest4 with
                 | some (fs, rest5) => some ((key, v) :: fs, rest5)
                 | none => none)
              | d :: rest4 =>
                if d = rbrace then some ([(key, v)], rest4) else none
              | [] => none)
         | _ => none)
    | _ => none

end

/-- `JSON.parse`: a single JSON value spanning the whole input. -/
def jsonParse (s : String) : Option JsValue :=
  match parseValueF (s.length + 1) s.data with
  | some (v, rest) => if skipWs rest = [] then some v else none
  | none => none

/-! ## `extractJson` (src/lib/ai-parsers.ts)

Strategy 1 matches `/(three backticks)(json)?\s*([\s\S]*?)\s*(three
backticks)/`: anchor at the first fence, optionally consume `json`,
greedily skip whitespace, and capture lazily up to the next fence with
its preceding whitespace run stripped; an overall match with an empty
capture is falsy and falls through.  Strategy 2 slices from the first
`[` to the last `]` (when properly ordered), else first `\x7b` to last
`\x7d`, else returns the input unchanged. -/

/-- The JS `\s` class (ASCII whitespace, NBSP, BOM, and the Unicode
space separators). -/
def isJsSpace (c : Char) : Bool :=
  c = ' ' || c = '\t' || c = '\n' || c = '\r' ||
  c.toNat = 11 || c.toNat = 12 || c.toNat = 160 || c.toNat = 5760 ||
  (8192 ≤ c.toNat && c.toNat ≤ 8202) ||
  c.toNat = 8232 || c.toNat = 8233 || c.toNat = 8239 || c.toNat = 8287 ||
  c.toNat = 12288 || c.toNat = 65279

/-- `String.prototype.trim`. -/
def jsTrim (s : String) : String :=
  String.mk (((s.data.dropWhile isJsSpace).reverse.dropWhile isJsSpace).reverse)

/-- First index at which the pattern occurs in the text. -/
def findSubIdx (pat : List Char) : List Char → Option Nat
  | [] => if pat.isEmpty then some 0 else none
  | c :: rest =>
    if pat.isPrefixOf (c :: rest) then some 0
    else (findSubIdx pat rest).map (· + 1)

def fenceChars : List Char := ['`', '`', '`']

/-- Capture of the markdown-fence regex, end-trimmed of the whitespace
run the second greedy class consumes; `none` when the regex does not
match at all. -/
def fenceCapture (cs : List Char) : Option String :=
  match findSubIdx fenceChars cs with
  | none => none
  | some i =>
    let afterOpen := cs.drop (i + 3)
    let afterLang :=
      if ("json".data).isPrefixOf afterOpen then afterOpen.drop 4 else afterOpen
    let start := afterLang.dropWhile isJsSpace
    match findSubIdx fenceChars start with
    | none => none
    | some j => some (String.mk (((start.take j).reverse.dropWhile isJsSpace).reverse))

def firstIdxOf (c : Char) (cs : List Char) : Option Nat := findSubIdx [c] cs

def lastIdxOf (c : Char) (cs : List Char) : Option Nat :=
  (findSubIdx [c] cs.reverse).map (fun i => cs.length - 1 - i)

/-- Slice `substring(first, last + 1)` then trim, guarded by
`first != -1 && last > first`. -/
def bracketSlice (opener closer : Char) (cs : List Char) : Option String :=
  match firstIdxOf opener cs, lastIdxOf closer cs with
  | some fb, some lb =>
    if fb < lb then some (jsTrim (String.mk ((cs.drop fb).take (lb + 1 - fb))))
    else none
  | _, _ => none

def extractJson (rawOutput : String) : String :=
  let cs := rawOutput.data
  let fallback :=
    match bracketSlice '[' ']' cs with
    | some s => s
    | none =>
      match bracketSlice lbrace rbrace cs with
      | some s => s
      | none => rawOutput
  match fenceCapture cs with
  | some cap => if cap ≠ "" then jsTrim cap else fallback
  | none => fallback

/-! ## `JSON.stringify(v, null, 2)` (host primitive used by stage 4)

Numbers are rendered by their parsed lexeme; this stands for the host's
double formatting and is never relied on by a theorem. -/

def indentOf (d : Nat) : String := String.mk (List.replicate (2 * d) ' ')

mutual

def jsonStringifyVal : JsValue → Nat → String
  | .null, _ => "null"
  | .bool true, _ => "true"
  | .bool false, _ => "false"
  | .num lex, _ => lex
  | .str s, _ => jsonQuote s
  | .arr [], _ => "[]"
  | .arr (x :: xs), d =>
    "[\n" ++ jsonStringifyItems (x :: xs) (d + 1) ++ "\n" ++ indentOf d ++ "]"
  | .obj [], _ => "\x7b\x7d"
  | .obj (f :: fs), d =>
    "\x7b\n" ++ jsonStringifyFields (f :: fs) (d + 1) ++ "\n" ++ indentOf d ++ "\x7d"

def jsonStringifyItems : List JsValue → Nat → String
  | [], _ => ""
  | [x], d => indentOf d ++ jsonStringifyVal x d
  | x :: y :: xs, d =>
    indentOf d ++ jsonStringifyVal x d ++ ",\n" ++ jsonStringifyItems (y :: xs) d

def jsonStringifyFields : List (String × JsValue) → Nat → String
  | [], _ => ""
  | [(k, v)], d => indentOf d ++ jsonQuote k ++ ": " ++ jsonStringifyVal v d
  | (k, v) :: g :: fs, d =>
    indentOf d ++ jsonQuote k ++ ": " ++ jsonStringifyVal v d ++ ",\n" ++
      jsonStringifyFields (g :: fs) d

end

def jsonStringifyIndent2 (v : JsValue) : String := jsonStringifyVal v 0

/-! ## Decoding parsed JSON as `UIComponent[]`

The source performs an unchecked cast (`as UIComponent[]`); the decoder
realizes that cast in the typed model, reading the UIComponent fields
where present.  No theorem depends on its details. -/

def jsLookup (fields : List (String × JsValue)) (k : String) : Option JsValue :=
  (fields.find? (fun f => f.1 = k)).map Prod.snd

def jsStrOf : JsValue → String
  | .str s => s
  | _ => ""

def metaOf (v : JsValue) : Option UIMetadata :=
  match v with
  | .obj mfs =>
    some
      { generated_at := (jsLookup mfs "generated_at").map jsStrOf |>.getD ""
        prompt := (jsLookup mfs "prompt").map jsStrOf
        version :=
          match jsLookup mfs "version" with
          | some (.num lex) => lex.toNat?
          | _ => none }
  | _ => none

def jsPropsOf (v : JsValue) : List (String × String) :=
  match v with
  | .obj pfs => pfs.map (fun f => (f.1, jsonStringifyVal f.2 0))
  | _ => []

mutual

def jsFieldsToComponent (acc : UIComponent) :
    List (String × JsValue) → UIComponent
  | [] => acc
  | (k, v) :: rest =>
    let acc' :=
      if k = "id" then
        .mk (jsStrOf v) acc.ty acc.props acc.children acc.metadata
      else if k = "type" then
        .mk acc.id (jsStrOf v) acc.props acc.children acc.metadata
      else if k = "props" then
        .mk acc.id acc.ty (jsPropsOf v) acc.children acc.metadata
      else if k = "children" then
        .mk acc.id acc.ty acc.props (jsChildrenOf v) acc.metadata
      else if k = "metadata" then
        .mk acc.id acc.ty acc.props acc.children (metaOf v)
      else acc
    jsFieldsToComponent acc' rest

def jsChildrenOf : JsValue → List UIChild
  | .arr xs => jsChildList xs
  | _ => []

def jsChildList : List JsValue → List UIChild
  | [] => []
  | v :: vs => jsChildOf v :: jsChildList vs

def jsChildOf : JsValue → UIChild
  | .str s => .text s
  | .obj fields => .comp (jsFieldsToComponent (.mk "" "" [] [] none) fields)
  | _ => .comp (.mk "" "" [] [] none)

end

def jsValueToComponent (v : JsValue) : UIComponent :=
  match v with
  | .obj fields => jsFieldsToComponent (.mk "" "" [] [] none) fields
  | _ => .mk "" "" [] [] none

def jsValueToComponents (v : JsValue) : List UIComponent :=
  match v with
  | .arr xs => xs.map jsValueToComponent
  | _ => []

/-! ## Generation pipeline (src/services/multiAgentGenerator.ts,
src/services/componentAnalyzer.ts, src/services/aiService.ts)

External collaborators appear as environment functions indexed by the
attempt number where an attempt can fail: `analyze` is the outcome of
`aiService.analyze` (transport plus JSON coercion), `codeGenRaw` the raw
text the code-generator chain returns, `parseErrorMsg` the host's
`JSON.parse` SyntaxError message for a given input.  `isAvailable` is the
analyzer's lookup into the bundled shadcn cache data and `fetchOutcome`
summarizes `fetchComponents`' result (that function has no throwing
path).  The clock is passed as `nowMs`/`nowIso`. -/

structure CompositeComponent where
  name : String
  components : List String
  description : String

structure ComponentAnalysis where
  requiredComponents : List String
  customComponents : List (String × String)
  compositeComponents : List CompositeComponent
  reasoning : String

/-- `ComponentAnalyzer.analyzeComponents`: the try/catch around the AI
call means this never rejects — on failure it returns the empty analysis
with a diagnostic reasoning. -/
def analyzeComponents (ai : Nat → Except String ComponentAnalysis) (k : Nat) :
    ComponentAnalysis :=
  match ai k with
  | .ok a => a
  | .error e =>
    { requiredComponents := [], customComponents := [], compositeComponents := []
      reasoning := "An error occurred during analysis: " ++ e }

/-- `[...new Set(xs)]`: deduplicate keeping first occurrences. -/
def dedupFirst (seen : List String) : List String → List String
  | [] => []
  | a :: rest =>
    if a ∈ seen then dedupFirst seen rest else a :: dedupFirst (a :: seen) rest

inductive StepStatus where
  | pending
  | running
  | completed
  | failed
deriving DecidableEq, Repr

inductive StepResult where
  | analysis (a : ComponentAnalysis)
  | availability (available unavailable : List String)
  | fetched (s : String)
  | code (s : String)
  | comps (cs : List UIComponent)

structure GenerationStep where
  step : Nat
  description : String
  status : StepStatus
  result : Option StepResult := none
  error : Option String := none
  retryCount : Option Nat := none

instance : Inhabited GenerationStep :=
  ⟨{ step := 0, description := "", status := .pending }⟩

def initialSteps : List GenerationStep :=
  [{ step := 1, description := "Analyze UI requirements", status := .pending },
   { step := 2, description := "Check component availability", status := .pending },
   { step := 3, description := "Fetch missing components", status := .pending },
   { step := 4, description := "Generate component code", status := .pending },
   { step := 5, description := "Validate and assemble UI", status := .pending }]

def maxRetries : Nat := 3

/-- `executeStep`'s retry recursion: run the operation; on success return
the value and the final retry count, on failure retry while
`retryCount < maxRetries - 1`, else fail with the last error.  The
attempt index is threaded to the operation so distinct attempts can have
distinct outcomes. -/
def executeStepAux (m : Nat) (op : Nat → Except String α) (retryCount : Nat) :
    Except String α × Nat :=
  match op retryCount with
  | .ok v => (.ok v, retryCount)
  | .error e =>
    if h : retryCount < m - 1 then executeStepAux m op (retryCount + 1)
    else (.error e, retryCount)
termination_by m - retryCount
decreasing_by omega

/-- Step record after a successful `executeStep`. -/
def completeStep (g : GenerationStep) (res : StepResult) (rc : Nat) :
    GenerationStep :=
  { g with status := .completed, result := some res, retryCount := some rc }

/-- Step record after retries are exhausted. -/
def failStep (g : GenerationStep) (e : String) (rc : Nat) : GenerationStep :=
  { g with status := .failed, error := some e, retryCount := some rc }

/-- Skipped fetch step: marked completed with the literal result, retry
count untouched. -/
def skipFetchStep (g : GenerationStep) : GenerationStep :=
  { g with status := .completed, result := some (.fetched "No components to fetch") }

structure PipelineEnv where
  analyze : Nat → Except String ComponentAnalysis
  isAvailable : String → Bool
  fetchOutcome : List String → String
  codeGenRaw : Nat → Except String String
  parseErrorMsg : String → String
  nowMs : Nat
  nowIso : String

/-- `AIService.runChain` for the code-generator chain
(`generateCode`): invoke the chain, then `JSON.parse(extractJson(raw))`;
any failure is rethrown as `Failed to generate component code: …`.
`generateComponentCode` then stringifies the parsed value with indent 2,
which is stage 4's recorded string result. -/
def runChainCodeGen (env : PipelineEnv) (k : Nat) : Except String String :=
  match env.codeGenRaw k with
  | .error e => .error ("Failed to generate component code: " ++ e)
  | .ok raw =>
    match jsonParse (extractJson raw) with
    | none =>
      .error ("Failed to generate component code: " ++
        env.parseErrorMsg (extractJson raw))
    | some v => .ok (jsonStringifyIndent2 v)

/-- `fallback-${Date.now()}` error card of `assembleComponents`. -/
def fallbackComponent (userPrompt generatedCode : String) (nowMs : Nat)
    (nowIso : String) : UIComponent :=
  .mk ("fallback-" ++ toString nowMs) "card"
    [("title", "Assembly Error"),
     ("content", "Failed to assemble UI components. Raw output was: " ++
        generatedCode),
     ("className", "border-red-500 bg-red-50 text-red-900")]
    []
    (some { generated_at := nowIso, prompt := some userPrompt, version := some 1 })

/-- `assembleComponents`: parse the generated code; on success the value
is the (unchecked-cast) component list; on parse failure return exactly
the single fallback error card carrying the raw output.  Its own
try/catch means it never throws. -/
def assembleComponents (userPrompt generatedCode : String) (nowMs : Nat)
    (nowIso : String) : List UIComponent :=
  match jsonParse generatedCode with
  | some v => jsValueToComponents v
  | none => [fallbackComponent userPrompt generatedCode nowMs nowIso]

structure PipelineResult where
  components : List UIComponent
  steps : List GenerationStep
  success : Bool

/-- `MultiAgentUIGenerator.generateUI`: five strictly sequential stages,
each through the retry wrapper; the first stage failure aborts the run
with `components: [], success: false` and later steps still pending.
Stage 1 routes `analyzeComponents` (which never rejects); stage 2
partitions required plus composite components (deduplicated,
insertion-ordered) by availability; stage 3 fetches only when something
is unavailable, else is marked completed with a literal result; stage 4
is the code-generator chain; stage 5 assembles and never fails. -/
def generateUI (env : PipelineEnv) (userPrompt : String) : PipelineResult :=
  let steps0 := initialSteps
  match executeStepAux maxRetries (fun k => .ok (analyzeComponents env.analyze k)) 0 with
  | (.error e, rc) =>
    { components := [], steps := steps0.set 0 (failStep (steps0.get! 0) e rc)
      success := false }
  | (.ok analysis, rc1) =>
  let steps1 := steps0.set 0 (completeStep (steps0.get! 0) (.analysis analysis) rc1)
  let allComponents :=
    dedupFirst [] (analysis.requiredComponents ++
      analysis.compositeComponents.flatMap CompositeComponent.components)
  let availAll := allComponents.filter env.isAvailable
  let unavailAll := allComponents.filter (fun c => !(env.isAvailable c))
  match executeStepAux maxRetries (fun _ => .ok (availAll, unavailAll)) 0 with
  | (.error e, rc) =>
    { components := [], steps := steps1.set 1 (failStep (steps1.get! 1) e rc)
      success := false }
  | (.ok (av, unav), rc2) =>
  let steps2 := steps1.set 1 (completeStep (steps1.get! 1) (.availability av unav) rc2)
  let fetchRes :=
    if unav.length > 0 then
      match executeStepAux maxRetries (fun _ => .ok (env.fetchOutcome unav)) 0 with
      | (.error e, rc) => Except.error (e, rc)
      | (.ok fr, rc3) =>
        Except.ok (steps2.set 2 (completeStep (steps2.get! 2) (.fetched fr) rc3))
    else Except.ok (steps2.set 2 (skipFetchStep (steps2.get! 2)))
  match fetchRes with
  | .error (e, rc) =>
    { components := [], steps := steps2.set 2 (failStep (steps2.get! 2) e rc)
      success := false }
  | .ok steps3 =>
  match executeStepAux maxRetries (runChainCodeGen env) 0 with
  | (.error e, rc) =>
    { components := [], steps := steps3.set 3 (failStep (steps3.get! 3) e rc)
      success := false }
  | (.ok generatedCode, rc4) =>
  let steps4 := steps3.set 3 (completeStep (steps3.get! 3) (.code generatedCode) rc4)
  match executeStepAux maxRetries
      (fun _ => .ok (assembleComponents userPrompt generatedCode env.nowMs env.nowIso)) 0 with
  | (.error e, rc) =>
    { components := [], steps := steps4.set 4 (failStep (steps4.get! 4) e rc)
      success := false }
  | (.ok components, rc5) =>
  let steps5 := steps4.set 4 (completeStep (steps4.get! 4) (.comps components) rc5)
  { components := components, steps := steps5, success := true }

/-! Equation lemmas for the retry wrapper. -/

theorem executeStepAux_ok {α : Type} (m : Nat) (op : Nat → Except String α)
    (rc : Nat) (v : α) (h : op rc = .ok v) :
    executeStepAux m op rc = (.ok v, rc) := by
  conv_lhs => rw [executeStepAux.eq_def]
  rw [h]

theorem executeStepAux_pure {α : Type} (m : Nat) (f : Nat → α) (rc : Nat) :
    executeStepAux m (fun k => .ok (f k)) rc = (.ok (f rc), rc) :=
  executeStepAux_ok m _ rc (f rc) rfl

theorem executeStepAux_err_retry {α : Type} (m : Nat) (op : Nat → Except String α)
    (rc : Nat) (e : String) (h : op rc = .error e) (hlt : rc < m - 1) :
    executeStepAux m op rc = executeStepAux m op (rc + 1) := by
  conv_lhs => rw [executeStepAux.eq_def]
  rw [h]
  exact dif_pos hlt

theorem executeStepAux_err_stop {α : Type} (m : Nat) (op : Nat → Except String α)
    (rc : Nat) (e : String) (h : op rc = .error e) (hge : ¬ rc < m - 1) :
    executeStepAux m op rc = (.error e, rc) := by
  conv_lhs => rw [executeStepAux.eq_def]
  rw [h]
  exact dif_neg hge

theorem executeStepAux_attempt_bound {α : Type} (op : Nat → Except String α) :
    (executeStepAux maxRetries op 0).2 ≤ 2 := by
  cases h0 : op 0 with
  | ok v => rw [executeStepAux_ok maxRetries op 0 v h0]; norm_num
  | error e0 =>
    rw [executeStepAux_err_retry maxRetries op 0 e0 h0 (by norm_num [maxRetries])]
    cases h1 : op 1 with
    | ok v => rw [executeStepAux_ok maxRetries op 1 v h1]; norm_num
    | error e1 =>
      rw [executeStepAux_err_retry maxRetries op 1 e1 h1 (by norm_num [maxRetries])]
      cases h2 : op 2 with
      | ok v => rw [executeStepAux_ok maxRetries op 2 v h2]
      | error e2 =>
        rw [executeStepAux_err_stop maxRetries op 2 e2 h2 (by norm_num [maxRetries])]

theorem executeStepAux_exhaust {α : Type} (op : Nat → Except String α)
    (e0 e1 e2 : String) (h0 : op 0 = .error e0) (h1 : op 1 = .error e1)
    (h2 : op 2 = .error e2) :
    executeStepAux maxRetries op 0 = (.error e2, 2) := by
  rw [executeStepAux_err_retry maxRetries op 0 e0 h0 (by norm_num [maxRetries]),
    executeStepAux_err_retry maxRetries op 1 e1 h1 (by norm_num [maxRetries]),
    executeStepAux_err_stop maxRetries op 2 e2 h2 (by norm_num [maxRetries])]

/-- Shape of the run when stage 4 exhausts its attempts: steps 1–3
completed, step 4 failed with the last error recorded, step 5 still
pending, empty components and `success: false`. -/
theorem generateUI_stage4_exhaust (env : PipelineEnv) (p efin : String)
    (hex : executeStepAux maxRetries (runChainCodeGen env) 0 = (.error efin, 2)) :
    (generateUI env p).components = [] ∧ (generateUI env p).success = false ∧
    (generateUI env p).steps.map GenerationStep.status =
      [.completed, .completed, .completed, .failed, .pending] ∧
    (generateUI env p).steps.map GenerationStep.error =
      [none, none, none, some efin, none] := by
  simp only [generateUI, executeStepAux_pure, hex]
  split
  next e rc heq => split at heq <;> simp at heq
  next steps3 heq =>
    split at heq <;>
      (injection heq with h
       subst h
       simp [initialSteps, completeStep, failStep, skipFetchStep])

/-! Concrete pipeline environments. -/

def analysisCard : ComponentAnalysis :=
  { requiredComponents := ["card"], customComponents := []
    compositeComponents := [], reasoning := "a card suffices" }

def envC5 : PipelineEnv :=
  { analyze := fun _ => .ok analysisCard
    isAvailable := fun _ => true
    fetchOutcome := fun _ => "fetched"
    codeGenRaw := fun _ => .error "network down"
    parseErrorMsg := fun _ => "Unexpected token"
    nowMs := 1700000000000
    nowIso := "2024-01-01T00:00:00Z" }

def envC2 : PipelineEnv :=
  { analyze := fun _ => .ok analysisCard
    isAvailable := fun _ => true
    fetchOutcome := fun _ => "fetched"
    codeGenRaw := fun _ => .ok "Sorry, I cannot do that."
    parseErrorMsg := fun _ => "Unexpected token S in JSON at position 0"
    nowMs := 1700000000000
    nowIso := "2024-01-01T00:00:00Z" }

/-! ## Claim C5 — bounded retries and failure shape -/

/-- C5: the retry wrapper every stage runs through makes at most 3
attempts (final retry count at most 2) and, when all three attempts of a
stage's operation fail, yields the stage failure carrying the last error;
concretely, when the code-generation collaborator fails on every attempt,
steps 1–3 complete, step 4 is `failed` with its error recorded, step 5
remains `pending`, and the run returns an empty fragment list with
`success: false`. -/
theorem pipeline_retry_bound_and_failure :
    (∀ {α : Type} (op : Nat → Except String α),
      (executeStepAux maxRetries op 0).2 ≤ 2) ∧
    (∀ {α : Type} (op : Nat → Except String α) (e0 e1 e2 : String),
      op 0 = .error e0 → op 1 = .error e1 → op 2 = .error e2 →
      executeStepAux maxRetries op 0 = (.error e2, 2)) ∧
    (∀ (env : PipelineEnv) (p e0 e1 e2 : String),
      env.codeGenRaw 0 = .error e0 → env.codeGenRaw 1 = .error e1 →
      env.codeGenRaw 2 = .error e2 →
      (generateUI env p).components = [] ∧ (generateUI env p).success = false ∧
      (generateUI env p).steps.map GenerationStep.status =
        [.completed, .completed, .completed, .failed, .pending] ∧
      (generateUI env p).steps.map GenerationStep.error =
        [none, none, none,
         some ("Failed to generate component code: " ++ e2), none]) := by
  refine ⟨fun op => executeStepAux_attempt_bound op,
    fun op e0 e1 e2 h0 h1 h2 => executeStepAux_exhaust op e0 e1 e2 h0 h1 h2, ?_⟩
  intro env p e0 e1 e2 h0 h1 h2
  have hr0 : runChainCodeGen env 0 =
      .error ("Failed to generate component code: " ++ e0) := by
    unfold runChainCodeGen
    rw [h0]
  have hr1 : runChainCodeGen env 1 =
      .error ("Failed to generate component code: " ++ e1) := by
    unfold runChainCodeGen
    rw [h1]
  have hr2 : runChainCodeGen env 2 =
      .error ("Failed to generate component code: " ++ e2) := by
    unfold runChainCodeGen
    rw [h2]
  exact generateUI_stage4_exhaust env p _
    (executeStepAux_exhaust _ _ _ _ hr0 hr1 hr2)

/-- Witness for C5's theorem at a concrete operation and environment. -/
theorem pipeline_retry_bound_and_failure_witness :
    (executeStepAux maxRetries (fun _ => (.error "transport" : Except String Nat)) 0).2 ≤ 2 ∧
    executeStepAux maxRetries (fun _ => (.error "transport" : Except String Nat)) 0 =
      (.error "transport", 2) ∧
    (generateUI envC5 "make ui").success = false ∧
    (generateUI envC5 "make ui").steps.map GenerationStep.status =
      [.completed, .completed, .completed, .failed, .pending] :=
  ⟨pipeline_retry_bound_and_failure.1 _,
   pipeline_retry_bound_and_failure.2.1 _ "transport" "transport" "transport"
     rfl rfl rfl,
   (pipeline_retry_bound_and_failure.2.2 envC5 "make ui"
     "network down" "network down" "network down" rfl rfl rfl).2.1,
   (pipeline_retry_bound_and_failure.2.2 envC5 "make ui"
     "network down" "network down" "network down" rfl rfl rfl).2.2.1⟩

/-! ## Claim C2 — assembly degradation -/

/-- C2 (corrected): the degraded path lives in the assembly stage — for
any stage-4 result string that is not parseable JSON, `assembleComponents`
returns exactly one fallback error card whose content embeds the raw
string (and that stage never fails).  But a synthesizer whose raw chain
output is not parseable JSON makes stage 4 itself throw inside
`runChain`'s `JSON.parse(extractJson(...))`; after the 3 attempts the run
returns `success: false` with no fragments, not a degraded success. -/
theorem assembly_degradation_scope :
    (∀ (userPrompt generatedCode : String) (nowMs : Nat) (nowIso : String),
      jsonParse generatedCode = none →
      assembleComponents userPrompt generatedCode nowMs nowIso =
        [fallbackComponent userPrompt generatedCode nowMs nowIso] ∧
      (fallbackComponent userPrompt generatedCode nowMs nowIso).props =
        [("title", "Assembly Error"),
         ("content", "Failed to assemble UI components. Raw output was: " ++
            generatedCode),
         ("className", "border-red-500 bg-red-50 text-red-900")]) ∧
    (∀ (env : PipelineEnv) (p : String) (raw : Nat → String),
      (∀ k, env.codeGenRaw k = .ok (raw k)) →
      (∀ k, jsonParse (extractJson (raw k)) = none) →
      (generateUI env p).success = false ∧
      (generateUI env p).components = []) := by
  constructor
  · intro up gc ms iso hnone
    constructor
    · simp [assembleComponents, hnone]
    · rfl
  · intro env p raw hok hnone
    have hr : ∀ k, runChainCodeGen env k =
        .error ("Failed to generate component code: " ++
          env.parseErrorMsg (extractJson (raw k))) := by
      intro k
      simp only [runChainCodeGen, hok k, hnone k]
    have hsh := generateUI_stage4_exhaust env p _
      (executeStepAux_exhaust _ _ _ _ (hr 0) (hr 1) (hr 2))
    exact ⟨hsh.2.1, hsh.1⟩

/-- Witness for C2's theorem: a concrete unparseable assembly input and
the concrete environment whose synthesizer emits unparseable text. -/
theorem assembly_degradation_scope_witness :
    assembleComponents "make ui" "not json at all" 7 "t0" =
      [fallbackComponent "make ui" "not json at all" 7 "t0"] ∧
    (generateUI envC2 "make ui").success = false :=
  ⟨(assembly_degradation_scope.1 "make ui" "not json at all" 7 "t0" rfl).1,
   (assembly_degradation_scope.2 envC2 "make ui"
      (fun _ => "Sorry, I cannot do that.") (fun _ => rfl) (fun _ => rfl)).1⟩

set_option maxRecDepth 10000 in
/-- C2 counterexample: the synthesizer's raw output is the unparseable
text `Sorry, I cannot do that.` on every attempt, and the run returns
`success: false` with no fragments — not `success: true` with one
fallback fragment as claimed. -/
theorem unparseable_synthesis_fails_run_cex :
    envC2.codeGenRaw 0 = .ok "Sorry, I cannot do that." ∧
    jsonParse "Sorry, I cannot do that." = none ∧
    (generateUI envC2 "make ui").success = false ∧
    (generateUI envC2 "make ui").components = [] ∧
    (generateUI envC2 "make ui").components.length ≠ 1 := by
  have hr : ∀ k, runChainCodeGen envC2 k =
      .error ("Failed to generate component code: " ++
        "Unexpected token S in JSON at position 0") := by
    intro k
    have h1 : envC2.codeGenRaw k = .ok "Sorry, I cannot do that." := rfl
    have h2 : jsonParse (extractJson "Sorry, I cannot do that.") = none := rfl
    simp only [runChainCodeGen, h1, h2]
    rfl
  have hsh := generateUI_stage4_exhaust envC2 "make ui" _
    (executeStepAux_exhaust _ _ _ _ (hr 0) (hr 1) (hr 2))
  refine ⟨rfl, rfl, hsh.2.1, hsh.1, ?_⟩
  rw [hsh.1]
  decide

end SelfGen
